import Mathlib

/-!
Verification of the hierarchical URL-completion resolver of a Defold
editor extension, shallowly embedded from
src/src/completion/url-completion-provider.ts.

The data model mirrors the IDefoldComponent / IDefoldInstance interfaces
consumed by the provider, the DefoldIndex lookups it queries, and the
vscode CompletionItem fields it populates (label, detail, description,
filterText; the kind is the constant CompletionItemKind.Text and carries
no information, so it is omitted).  JavaScript strings are modelled as
Lean String values; the character-level predicates work on String.data.
-/

namespace DefoldUrlCompletion

/-- A component entry of the project index (interface IDefoldComponent):
a leaf entity attached to a game object. -/
structure DefoldComponent where
  url : String
  type : String
  filename : String
  id : String
deriving DecidableEq

/-- An instance entry of the project index (interface IDefoldInstance):
an embedded game object or collection, owning child instances and
components.  The containment relation is a tree, which the inductive
type captures directly. -/
inductive DefoldInstance where
  | mk (url : String) (type : String) (filename : String)
       (instances : List DefoldInstance) (components : List DefoldComponent) : DefoldInstance

/-- Accessor for the url field of an instance. -/
def DefoldInstance.url : DefoldInstance → String
  | .mk u _ _ _ _ => u

/-- Accessor for the type field of an instance. -/
def DefoldInstance.type : DefoldInstance → String
  | .mk _ t _ _ _ => t

/-- Accessor for the filename field of an instance. -/
def DefoldInstance.filename : DefoldInstance → String
  | .mk _ _ f _ _ => f

/-- Accessor for the child instances of an instance. -/
def DefoldInstance.instances : DefoldInstance → List DefoldInstance
  | .mk _ _ _ is _ => is

/-- Accessor for the components directly owned by an instance. -/
def DefoldInstance.components : DefoldInstance → List DefoldComponent
  | .mk _ _ _ _ cs => cs

/-- The fields of a vscode.CompletionItem that the provider populates:
label.label, label.detail, label.description and filterText. -/
structure CompletionItem where
  label : String
  detail : String
  description : String
  filterText : String
deriving DecidableEq

/-- The two DefoldIndex lookups the provider queries
(DefoldIndex.instance.findGameObjectComponents and
DefoldIndex.instance.findCollectionInstances), abstracted as an
explicit index value so that different index snapshots can be compared. -/
structure DefoldIndex where
  findGameObjectComponents : String → List DefoldComponent
  findCollectionInstances : String → List DefoldInstance

/-- The parts of the vscode document/position pair the provider reads:
document.uri.path, workspace.asRelativePath(document.uri), and
document.lineAt(position).text.substring(0, position.character)
(the text of the current line before the caret). -/
structure TextDocumentModel where
  uriPath : String
  relativePath : String
  textBeforeCaret : String
deriving DecidableEq

/-- JavaScript String.endsWith, modelled on the character lists. -/
def endsWithStr (s post : String) : Bool :=
  post.data.isSuffixOf s.data

/-- A JavaScript regex word character (the class backslash-w):
an ASCII letter, digit, or underscore. -/
def isWordChar (c : Char) : Bool :=
  c.isAlphanum || c = '_'

/-- Matches a possibly empty run of word characters followed by a final
colon (the tail of the regex pattern after its first word character). -/
def wordColonTail : List Char → Bool
  | [] => false
  | [c] => c = ':'
  | c :: rest => isWordChar c && wordColonTail rest

/-- Matches one or more word characters followed by a final colon
(what the regex requires between a double quote and the end of text). -/
def quoteRestMatch : List Char → Bool
  | [] => false
  | c :: rest => isWordChar c && wordColonTail rest

/-- The test of the regex slash-quote-w-plus-colon-dollar-slash on a
line of text: somewhere in the text a double quote is followed by one
or more word characters and a colon that ends the text. -/
def quoteWordColonEnd : List Char → Bool
  | [] => false
  | c :: rest => (c = '"' && quoteRestMatch rest) || quoteWordColonEnd rest

/-- showUrlCompletion: the completion trigger predicate.  False unless
the document path ends with ".script"; then true when the text before
the caret ends with a double quote, ends with quote-hash, or matches
the quote-word-colon-at-end regex. -/
def showUrlCompletion (doc : TextDocumentModel) : Bool :=
  if !(endsWithStr doc.uriPath ".script") then
    false
  else if endsWithStr doc.textBeforeCaret "\"" || endsWithStr doc.textBeforeCaret "\"#"
      || quoteWordColonEnd doc.textBeforeCaret.data then
    true
  else
    false

/-- componentCompletionItem: one suggestion per component, labelled by
its url, detailed by a space and its type, described by its filename,
and filtered by its short id. -/
def componentCompletionItem (component : DefoldComponent) : CompletionItem :=
  { label := component.url
    detail := " " ++ component.type
    description := component.filename
    filterText := component.id }

mutual

/-- instanceCompletionItem: the recursive expansion of an instance —
a suggestion for the instance itself (filtered by its full url),
followed by the expansions of its child instances, followed by one
suggestion per directly owned component. -/
def instanceCompletionItem : DefoldInstance → List CompletionItem
  | .mk url ty filename instances components =>
    { label := url, detail := " " ++ ty, description := filename, filterText := url }
      :: (instancesItems instances ++ components.map componentCompletionItem)

/-- The flatMap over child instances inside instanceCompletionItem,
written as structural recursion over the list. -/
def instancesItems : List DefoldInstance → List CompletionItem
  | [] => []
  | i :: rest => instanceCompletionItem i ++ instancesItems rest

end

/-- completionIfAttachedToGameObject: query the index for the components
of the game object the script is attached to, under the path prefixed
with a slash, and map each to a suggestion. -/
def completionIfAttachedToGameObject (index : DefoldIndex) (scriptPath : String) :
    List CompletionItem :=
  (index.findGameObjectComponents ("/" ++ scriptPath)).map componentCompletionItem

/-- completionIfAttachedToCollection: query the index for the instances
of the collection the script is attached to, under the path prefixed
with a slash, and expand each recursively. -/
def completionIfAttachedToCollection (index : DefoldIndex) (script : String) :
    List CompletionItem :=
  (index.findCollectionInstances ("/" ++ script)).flatMap instanceCompletionItem

/-- The items expression of provideCompletionItems: game-object
component suggestions concatenated with collection instance
expansions. -/
def resolveUrlCompletions (index : DefoldIndex) (script : String) : List CompletionItem :=
  completionIfAttachedToGameObject index script ++ completionIfAttachedToCollection index script

/-- provideCompletionItems: gate on the trigger predicate, resolve the
suggestions for the document's workspace-relative path, and return them
only when the list is non-empty, otherwise the explicit undefined. -/
def provideCompletionItems (index : DefoldIndex) (doc : TextDocumentModel) :
    Option (List CompletionItem) :=
  if !(showUrlCompletion doc) then
    none
  else
    let items := resolveUrlCompletions index doc.relativePath
    if items.length ≠ 0 then some items else none

/-!
Heap model for the termination question.  The JavaScript index holds
instance objects on a heap of references, so nothing in the language
prevents a malformed index whose instance graph is cyclic, a shape the
inductive DefoldInstance cannot represent.  A node names its children
by heap position, and the traversal of instanceCompletionItem is run
with explicit fuel so that divergence is observable: a none result
means the traversal did not complete within the given fuel.
-/

/-- An instance object on the heap: the same fields as DefoldInstance,
with child instances given as heap positions instead of subtrees. -/
structure DefoldInstanceNode where
  url : String
  type : String
  filename : String
  childIds : List Nat
  components : List DefoldComponent

mutual

/-- The traversal of instanceCompletionItem over a heap of instance
nodes, fuel-limited: none when the fuel runs out before the expansion
is complete (or a child id dangles). -/
def instanceItemsOnHeap (heap : List DefoldInstanceNode) : Nat → Nat → Option (List CompletionItem)
  | 0, _ => none
  | fuel+1, id =>
    match heap.get? id with
    | none => none
    | some node =>
      match instancesItemsOnHeap heap fuel node.childIds with
      | none => none
      | some childItems =>
        some ({ label := node.url, detail := " " ++ node.type,
                description := node.filename, filterText := node.url }
          :: (childItems ++ node.components.map componentCompletionItem))

/-- The traversal of a list of child heap positions. -/
def instancesItemsOnHeap (heap : List DefoldInstanceNode) : Nat → List Nat → Option (List CompletionItem)
  | _, [] => some []
  | fuel, id :: rest =>
    match instanceItemsOnHeap heap fuel id, instancesItemsOnHeap heap fuel rest with
    | some a, some b => some (a ++ b)
    | _, _ => none

end

/-- The traversal of a heap node completes within some fuel bound. -/
def heapTraversalTerminates (heap : List DefoldInstanceNode) (id : Nat) : Prop :=
  ∃ fuel, (instanceItemsOnHeap heap fuel id).isSome = true

/-- A malformed, cyclic index heap: its single instance lists itself as
its own child. -/
def cyclicHeap : List DefoldInstanceNode :=
  [{ url := "/go", type := "go", filename := "/main/main.collection",
     childIds := [0], components := [] }]

mutual

/-- The fuel-limited variant of instanceCompletionItem on tree-shaped
index data, used to state that on such data the traversal completes
within a fuel bound. -/
def instanceItemsFuel : Nat → DefoldInstance → Option (List CompletionItem)
  | 0, _ => none
  | fuel+1, .mk url ty filename instances components =>
    match instancesItemsFuel fuel instances with
    | none => none
    | some childItems =>
      some ({ label := url, detail := " " ++ ty, description := filename, filterText := url }
        :: (childItems ++ components.map componentCompletionItem))

/-- The fuel-limited traversal of a list of child instances. -/
def instancesItemsFuel : Nat → List DefoldInstance → Option (List CompletionItem)
  | _, [] => some []
  | fuel, i :: rest =>
    match instanceItemsFuel fuel i, instancesItemsFuel fuel rest with
    | some a, some b => some (a ++ b)
    | _, _ => none

end

mutual

/-- The nesting depth of an instance tree (at least 1). -/
def DefoldInstance.depth : DefoldInstance → Nat
  | .mk _ _ _ is _ => depthList is + 1

/-- The maximal nesting depth among a list of instance trees. -/
def depthList : List DefoldInstance → Nat
  | [] => 0
  | i :: rest => max (DefoldInstance.depth i) (depthList rest)

end

/-!
Concrete index data for the scenarios named by the specification:
a collection holding one instance with two components and one nested
instance that itself holds one component, and a component-only game
object.
-/

/-- The component of the nested instance. -/
def nestedComp : DefoldComponent :=
  { url := "hero:/nested#body", type := "sprite", filename := "/main/body.sprite", id := "body" }

/-- The first component of the outer instance. -/
def outerComp1 : DefoldComponent :=
  { url := "hero:/outer#hero", type := "script", filename := "/main/hero.script", id := "hero" }

/-- The second component of the outer instance. -/
def outerComp2 : DefoldComponent :=
  { url := "hero:/outer#gun", type := "factory", filename := "/main/gun.go", id := "gun" }

/-- The nested child instance, with one component and no children. -/
def nestedInstance : DefoldInstance :=
  .mk "hero:/nested" "go" "/main/nested.go" [] [nestedComp]

/-- The outer instance: two components and one nested child instance. -/
def outerInstance : DefoldInstance :=
  .mk "hero:/outer" "collection" "/main/hero.collection" [nestedInstance] [outerComp1, outerComp2]

/-- An index in which the script /main/hero.script is attached to the
collection holding outerInstance and to no game object. -/
def exampleIndex : DefoldIndex :=
  { findGameObjectComponents := fun _ => []
    findCollectionInstances := fun p => if p = "/main/hero.script" then [outerInstance] else [] }

/-- An index in which the script /main/hero.script is attached to a
component-only game object with two components. -/
def gameObjectIndex : DefoldIndex :=
  { findGameObjectComponents := fun p =>
      if p = "/main/hero.script" then [outerComp1, outerComp2] else []
    findCollectionInstances := fun _ => [] }

/-- An index with no entries at all. -/
def emptyIndex : DefoldIndex :=
  { findGameObjectComponents := fun _ => []
    findCollectionInstances := fun _ => [] }

/-- A document on the script /main/hero.script whose caret sits right
after an opening double quote, so the trigger predicate holds. -/
def triggerDoc : TextDocumentModel :=
  { uriPath := "/main/hero.script"
    relativePath := "main/hero.script"
    textBeforeCaret := "local x = go.get(\"" }

/-- A document on the script /main/hero.script whose line holds a
closed quoted string, so the trigger predicate fails. -/
def closedQuoteDoc : TextDocumentModel :=
  { uriPath := "/main/hero.script"
    relativePath := "main/hero.script"
    textBeforeCaret := "local x = go.get(\"go\")" }

/-! Helper lemmas. -/

/-- The structural child-list helper agrees with List.flatMap. -/
theorem instancesItems_eq_flatMap (l : List DefoldInstance) :
    instancesItems l = l.flatMap instanceCompletionItem := by
  induction l with
  | nil => rfl
  | cons i rest ih => simp [instancesItems, ih]

/-- Length of the child-list expansion: the sum of the child expansion
lengths. -/
theorem instancesItems_length (l : List DefoldInstance) :
    (instancesItems l).length = (l.map fun i => (instanceCompletionItem i).length).sum := by
  induction l with
  | nil => rfl
  | cons i rest ih => simp [instancesItems, ih]

/-- The model of JavaScript String.endsWith holds exactly when the
character data decomposes as some prefix followed by the suffix. -/
theorem endsWithStr_iff (s post : String) :
    endsWithStr s post = true ↔ ∃ pre, s.data = pre ++ post.data := by
  rw [endsWithStr, List.isSuffixOf_iff_suffix]
  constructor
  · rintro ⟨t, ht⟩
    exact ⟨t, ht.symm⟩
  · rintro ⟨pre, hpre⟩
    exact ⟨pre, hpre.symm⟩

/-- Characterization of wordColonTail: a possibly empty run of word
characters closed by a final colon. -/
theorem wordColonTail_iff (l : List Char) :
    wordColonTail l = true ↔ ∃ w, l = w ++ [':'] ∧ ∀ c ∈ w, isWordChar c = true := by
  induction l with
  | nil =>
    simp [wordColonTail]
  | cons c rest ih =>
    cases rest with
    | nil =>
      simp only [wordColonTail, decide_eq_true_eq]
      constructor
      · rintro rfl
        exact ⟨[], rfl, by simp⟩
      · rintro ⟨w, hw, -⟩
        cases w with
        | nil => simpa using hw
        | cons a w' =>
          simp only [List.cons_append, List.cons.injEq] at hw
          exact absurd hw.2 (by simp)
    | cons d rest' =>
      simp only [wordColonTail, Bool.and_eq_true, ih]
      constructor
      · rintro ⟨hc, w, hw, hall⟩
        refine ⟨c :: w, by simp [hw], ?_⟩
        intro a ha
        rcases List.mem_cons.mp ha with rfl | ha
        · exact hc
        · exact hall a ha
      · rintro ⟨w, hw, hall⟩
        cases w with
        | nil => simp at hw
        | cons a w' =>
          simp only [List.cons_append, List.cons.injEq] at hw
          obtain ⟨rfl, hw'⟩ := hw
          refine ⟨hall c (by simp), w', hw', ?_⟩
          intro b hb
          exact hall b (by simp [hb])

/-- Characterization of quoteRestMatch: a non-empty run of word
characters closed by a final colon. -/
theorem quoteRestMatch_iff (l : List Char) :
    quoteRestMatch l = true ↔
      ∃ w, l = w ++ [':'] ∧ w ≠ [] ∧ ∀ c ∈ w, isWordChar c = true := by
  cases l with
  | nil =>
    simp [quoteRestMatch]
  | cons c rest =>
    simp only [quoteRestMatch, Bool.and_eq_true, wordColonTail_iff]
    constructor
    · rintro ⟨hc, w, hw, hall⟩
      refine ⟨c :: w, by simp [hw], by simp, ?_⟩
      intro a ha
      rcases List.mem_cons.mp ha with rfl | ha
      · exact hc
      · exact hall a ha
    · rintro ⟨w, hw, hne, hall⟩
      cases w with
      | nil => exact absurd rfl hne
      | cons a w' =>
        simp only [List.cons_append, List.cons.injEq] at hw
        obtain ⟨rfl, hw'⟩ := hw
        refine ⟨hall c (by simp), w', hw', ?_⟩
        intro b hb
        exact hall b (by simp [hb])

/-- Characterization of the regex test: somewhere in the text a double
quote is followed by a non-empty run of word characters and a final
colon ending the text. -/
theorem quoteWordColonEnd_iff (l : List Char) :
    quoteWordColonEnd l = true ↔
      ∃ pre w, l = pre ++ '"' :: (w ++ [':']) ∧ w ≠ [] ∧ ∀ c ∈ w, isWordChar c = true := by
  induction l with
  | nil =>
    simp [quoteWordColonEnd]
  | cons c rest ih =>
    simp only [quoteWordColonEnd, Bool.or_eq_true, Bool.and_eq_true, decide_eq_true_eq,
      quoteRestMatch_iff, ih]
    constructor
    · rintro (⟨rfl, w, hw, hne, hall⟩ | ⟨pre, w, hw, hne, hall⟩)
      · exact ⟨[], w, by simp [hw], hne, hall⟩
      · exact ⟨c :: pre, w, by simp [hw], hne, hall⟩
    · rintro ⟨pre, w, hw, hne, hall⟩
      cases pre with
      | nil =>
        simp only [List.nil_append, List.cons.injEq] at hw
        exact Or.inl ⟨hw.1, w, hw.2, hne, hall⟩
      | cons p pre' =>
        simp only [List.cons_append, List.cons.injEq] at hw
        exact Or.inr ⟨pre', w, hw.2, hne, hall⟩

/-- On the cyclic heap, no amount of fuel completes the traversal of
node 0: the unguarded recursion descends forever. -/
theorem cyclicHeap_no_fuel (fuel : Nat) : instanceItemsOnHeap cyclicHeap fuel 0 = none := by
  induction fuel with
  | zero => simp [instanceItemsOnHeap]
  | succ n ih =>
    simp only [cyclicHeap] at ih
    simp [instanceItemsOnHeap, instancesItemsOnHeap, cyclicHeap, ih]

/-- Fuel adequacy on tree-shaped data: fuel at least the nesting depth
makes the fuel-limited traversal complete with exactly the expansion
computed by instanceCompletionItem. -/
theorem instanceItemsFuel_adequate (fuel : Nat) :
    (∀ i : DefoldInstance, DefoldInstance.depth i ≤ fuel →
        instanceItemsFuel fuel i = some (instanceCompletionItem i)) ∧
    (∀ l : List DefoldInstance, depthList l ≤ fuel →
        instancesItemsFuel fuel l = some (instancesItems l)) := by
  induction fuel with
  | zero =>
    constructor
    · intro i hd
      cases i with
      | mk u t f is cs =>
        simp [DefoldInstance.depth] at hd
    · intro l hd
      cases l with
      | nil => simp [instancesItemsFuel, instancesItems]
      | cons i rest =>
        cases i with
        | mk u t f is cs =>
          simp [depthList, DefoldInstance.depth] at hd
  | succ n ih =>
    have hInst : ∀ i : DefoldInstance, DefoldInstance.depth i ≤ n + 1 →
        instanceItemsFuel (n + 1) i = some (instanceCompletionItem i) := by
      intro i hd
      cases i with
      | mk u t f is cs =>
        have hle : depthList is ≤ n := by
          simp only [DefoldInstance.depth] at hd
          omega
        simp [instanceItemsFuel, ih.2 is hle, instanceCompletionItem]
    have hList : ∀ l : List DefoldInstance, depthList l ≤ n + 1 →
        instancesItemsFuel (n + 1) l = some (instancesItems l) := by
      intro l
      induction l with
      | nil =>
        intro hd
        simp [instancesItemsFuel, instancesItems]
      | cons i rest ihl =>
        intro hd
        simp only [depthList, max_le_iff] at hd
        simp [instancesItemsFuel, hInst i hd.1, ihl hd.2, instancesItems]
    exact ⟨hInst, hList⟩

/-- The trigger predicate as a Boolean combination: path ends with
".script" and one of the three caret-context patterns holds. -/
theorem showUrlCompletion_eq (doc : TextDocumentModel) :
    showUrlCompletion doc =
      (endsWithStr doc.uriPath ".script" &&
        (endsWithStr doc.textBeforeCaret "\"" || endsWithStr doc.textBeforeCaret "\"#" ||
          quoteWordColonEnd doc.textBeforeCaret.data)) := by
  rw [showUrlCompletion]
  cases endsWithStr doc.uriPath ".script" with
  | false => simp
  | true =>
    cases h : (endsWithStr doc.textBeforeCaret "\"" || endsWithStr doc.textBeforeCaret "\"#" ||
        quoteWordColonEnd doc.textBeforeCaret.data) <;> simp [h]

/-! Claim theorems. -/

/-- C1 counterexample: in the concrete scenario of a collection with one
instance holding 2 components and 1 nested instance that itself holds
1 component, resolve returns 5 suggestions, not the 4 the claim
states. -/
theorem c1_counterexample :
    (resolveUrlCompletions exampleIndex "main/hero.script").length ≠ 4 := by
  decide

/-- C1 (amended): the recursive expansion of an instance produces, in
order, one suggestion for the instance itself, then the recursive
expansions of its child instances, then one suggestion per directly
owned component in declared order; and in the concrete scenario the
resolved sequence is, in order, the outer instance, the nested
instance, the nested instance's component, and the outer instance's
2 components — 5 suggestions total. -/
theorem c1_expansion_order :
    (∀ (u t f : String) (is : List DefoldInstance) (cs : List DefoldComponent),
      instanceCompletionItem (.mk u t f is cs) =
        { label := u, detail := " " ++ t, description := f, filterText := u }
          :: (is.flatMap instanceCompletionItem ++ cs.map componentCompletionItem)) ∧
    resolveUrlCompletions exampleIndex "main/hero.script" =
      [{ label := "hero:/outer", detail := " collection",
         description := "/main/hero.collection", filterText := "hero:/outer" },
       { label := "hero:/nested", detail := " go",
         description := "/main/nested.go", filterText := "hero:/nested" },
       { label := "hero:/nested#body", detail := " sprite",
         description := "/main/body.sprite", filterText := "body" },
       { label := "hero:/outer#hero", detail := " script",
         description := "/main/hero.script", filterText := "hero" },
       { label := "hero:/outer#gun", detail := " factory",
         description := "/main/gun.go", filterText := "gun" }] := by
  constructor
  · intro u t f is cs
    simp [instanceCompletionItem, instancesItems_eq_flatMap]
  · decide

/-- C2: the trigger predicate holds exactly when the document path ends
with ".script" and the text before the caret ends with a double quote,
or ends with quote-hash, or somewhere holds a double quote followed by
one or more word characters and a colon ending the text; and the
closed-quote line yields false. -/
theorem c2_trigger_characterization :
    (∀ doc : TextDocumentModel,
      showUrlCompletion doc = true ↔
        (∃ pre, doc.uriPath.data = pre ++ ".script".data) ∧
          ((∃ pre, doc.textBeforeCaret.data = pre ++ ['"']) ∨
            (∃ pre, doc.textBeforeCaret.data = pre ++ ['"', '#']) ∨
            (∃ pre w, doc.textBeforeCaret.data = pre ++ '"' :: (w ++ [':']) ∧ w ≠ [] ∧
              ∀ c ∈ w, isWordChar c = true))) ∧
    showUrlCompletion triggerDoc = true ∧ showUrlCompletion closedQuoteDoc = false := by
  refine ⟨?_, by decide, by decide⟩
  intro doc
  have hq : ("\"" : String).data = ['"'] := rfl
  have hqh : ("\"#" : String).data = ['"', '#'] := rfl
  rw [showUrlCompletion_eq, Bool.and_eq_true, Bool.or_eq_true, Bool.or_eq_true,
    endsWithStr_iff, endsWithStr_iff, endsWithStr_iff, quoteWordColonEnd_iff, hq, hqh,
    or_assoc]

/-- C3: resolve concatenates, in order, the component suggestions of
the game-object lookup (mapped one to one) with the flattened
expansions of the collection lookup's instances; when the collection
lookup is empty, resolve returns exactly as many suggestions as the
game-object lookup returned components. -/
theorem c3_resolve_concatenation :
    (∀ (index : DefoldIndex) (script : String),
      resolveUrlCompletions index script =
        (index.findGameObjectComponents ("/" ++ script)).map componentCompletionItem ++
          (index.findCollectionInstances ("/" ++ script)).flatMap instanceCompletionItem) ∧
    (∀ (index : DefoldIndex) (script : String),
      index.findCollectionInstances ("/" ++ script) = [] →
        (resolveUrlCompletions index script).length =
          (index.findGameObjectComponents ("/" ++ script)).length) := by
  constructor
  · intro index script
    rfl
  · intro index script h
    simp [resolveUrlCompletions, completionIfAttachedToGameObject,
      completionIfAttachedToCollection, h]

/-- C3 witness: a component-only game object with 2 attached components
yields exactly 2 suggestions. -/
theorem c3_witness :
    gameObjectIndex.findCollectionInstances ("/" ++ "main/hero.script") = [] ∧
      (resolveUrlCompletions gameObjectIndex "main/hero.script").length =
        (gameObjectIndex.findGameObjectComponents ("/" ++ "main/hero.script")).length :=
  ⟨rfl, c3_resolve_concatenation.2 gameObjectIndex "main/hero.script" rfl⟩

/-- C4: the formatter labels an entity by its url, details it by a
single leading space and its type, describes it by its filename; a
component suggestion filters on the component's short id, an instance
suggestion filters on the instance's full url. -/
theorem c4_formatter_fields :
    (∀ component : DefoldComponent,
      componentCompletionItem component =
        { label := component.url, detail := " " ++ component.type,
          description := component.filename, filterText := component.id }) ∧
    (∀ i : DefoldInstance,
      (instanceCompletionItem i).head? =
        some { label := DefoldInstance.url i, detail := " " ++ DefoldInstance.type i,
               description := DefoldInstance.filename i, filterText := DefoldInstance.url i }) := by
  constructor
  · intro component
    rfl
  · intro i
    cases i with
    | mk u t f is cs =>
      simp [instanceCompletionItem, DefoldInstance.url, DefoldInstance.type,
        DefoldInstance.filename]

/-- C5: both index lookups are queried with the script's
workspace-relative path prefixed by a path separator. -/
theorem c5_path_prefixing :
    ∀ (index : DefoldIndex) (script : String),
      completionIfAttachedToGameObject index script =
          (index.findGameObjectComponents ("/" ++ script)).map componentCompletionItem ∧
        completionIfAttachedToCollection index script =
          (index.findCollectionInstances ("/" ++ script)).flatMap instanceCompletionItem :=
  fun _ _ => ⟨rfl, rfl⟩

/-- C6: when both index lookups on the prefixed script path return
empty lists, the provider returns the explicit absent value, never an
error: the embedding is a total function into Option and yields none. -/
theorem c6_empty_index_no_suggestions :
    ∀ (index : DefoldIndex) (doc : TextDocumentModel),
      index.findGameObjectComponents ("/" ++ doc.relativePath) = [] →
      index.findCollectionInstances ("/" ++ doc.relativePath) = [] →
      provideCompletionItems index doc = none := by
  intro index doc h1 h2
  cases hs : showUrlCompletion doc <;>
    simp [provideCompletionItems, resolveUrlCompletions, completionIfAttachedToGameObject,
      completionIfAttachedToCollection, hs, h1, h2]

/-- C6 witness: the empty index yields none for a triggering document. -/
theorem c6_witness : provideCompletionItems emptyIndex triggerDoc = none :=
  c6_empty_index_no_suggestions emptyIndex triggerDoc rfl rfl

/-- C7 counterexample: on a malformed index whose single instance lists
itself as a child, the unguarded traversal never completes, whatever
fuel bound it is given — there is no visited-set guard in the code. -/
theorem c7_counterexample : ¬ heapTraversalTerminates cyclicHeap 0 := by
  rintro ⟨fuel, h⟩
  rw [cyclicHeap_no_fuel fuel] at h
  simp at h

/-- C7 (amended): the traversal carries no cycle guard, so on a cyclic
index it does not terminate; under the index's acyclic-tree invariant
resolution terminates — fuel equal to the nesting depth makes the
fuel-limited traversal complete with the full expansion. -/
theorem c7_tree_termination :
    ∀ i : DefoldInstance,
      instanceItemsFuel (DefoldInstance.depth i) i = some (instanceCompletionItem i) :=
  fun i => (instanceItemsFuel_adequate (DefoldInstance.depth i)).1 i le_rfl

/-- C8: resolution is deterministic in the document and the index
snapshot: two indexes whose lookups agree on every path produce the
same suggestion sequence for the same document, position by position. -/
theorem c8_deterministic_resolution :
    ∀ (index1 index2 : DefoldIndex) (doc : TextDocumentModel),
      (∀ p, index1.findGameObjectComponents p = index2.findGameObjectComponents p) →
      (∀ p, index1.findCollectionInstances p = index2.findCollectionInstances p) →
      provideCompletionItems index1 doc = provideCompletionItems index2 doc := by
  intro index1 index2 doc h1 h2
  simp [provideCompletionItems, resolveUrlCompletions, completionIfAttachedToGameObject,
    completionIfAttachedToCollection, h1, h2]

/-- C8 witness: calling the provider twice on the same document against
an unchanged index gives the same result. -/
theorem c8_witness :
    provideCompletionItems exampleIndex triggerDoc =
      provideCompletionItems exampleIndex triggerDoc :=
  c8_deterministic_resolution exampleIndex exampleIndex triggerDoc
    (fun _ => rfl) (fun _ => rfl)

/-- C9: the expansion of an instance has size 1 plus the sum of the
child expansion sizes plus the number of directly owned components; it
is never empty and its first element is the suggestion for the
instance itself. -/
theorem c9_expansion_size :
    ∀ i : DefoldInstance,
      (instanceCompletionItem i).length =
          1 + ((DefoldInstance.instances i).map fun c => (instanceCompletionItem c).length).sum
            + (DefoldInstance.components i).length ∧
        instanceCompletionItem i ≠ [] ∧
        (instanceCompletionItem i).head? =
          some { label := DefoldInstance.url i, detail := " " ++ DefoldInstance.type i,
                 description := DefoldInstance.filename i, filterText := DefoldInstance.url i } := by
  intro i
  cases i with
  | mk u t f is cs =>
    refine ⟨?_, by simp [instanceCompletionItem], ?_⟩
    · simp [instanceCompletionItem, DefoldInstance.instances, DefoldInstance.components,
        instancesItems_length]
      omega
    · simp [instanceCompletionItem, DefoldInstance.url, DefoldInstance.type,
        DefoldInstance.filename]

/-- C10: the provider never returns an empty suggestion list: the
result is none both when the trigger predicate is false and when the
resolved sequence is empty, and a returned list is never the empty
list. -/
theorem c10_no_empty_list :
    (∀ (index : DefoldIndex) (doc : TextDocumentModel),
        provideCompletionItems index doc ≠ some []) ∧
      (∀ (index : DefoldIndex) (doc : TextDocumentModel),
        showUrlCompletion doc = false → provideCompletionItems index doc = none) ∧
      (∀ (index : DefoldIndex) (doc : TextDocumentModel),
        resolveUrlCompletions index doc.relativePath = [] →
          provideCompletionItems index doc = none) := by
  refine ⟨?_, ?_, ?_⟩
  · intro index doc
    cases hs : showUrlCompletion doc with
    | false => simp [provideCompletionItems, hs]
    | true =>
      by_cases hl : (resolveUrlCompletions index doc.relativePath).length ≠ 0
      · simp only [provideCompletionItems, hs, Bool.not_true, Bool.false_eq_true,
          if_false, if_pos hl]
        intro h
        apply hl
        simp [Option.some.injEq] at h
        simp [h]
      · simp [provideCompletionItems, hs, hl]
  · intro index doc hs
    simp [provideCompletionItems, hs]
  · intro index doc h
    cases hs : showUrlCompletion doc <;> simp [provideCompletionItems, hs, h]

/-- C10 witness: none for a non-triggering document, none for a
triggering document over the empty index, and never some empty list. -/
theorem c10_witness :
    provideCompletionItems emptyIndex closedQuoteDoc = none ∧
      provideCompletionItems emptyIndex triggerDoc = none ∧
      provideCompletionItems emptyIndex triggerDoc ≠ some [] :=
  ⟨c10_no_empty_list.2.1 emptyIndex closedQuoteDoc (by decide),
   c10_no_empty_list.2.2 emptyIndex triggerDoc rfl,
   c10_no_empty_list.1 emptyIndex triggerDoc⟩

end DefoldUrlCompletion
